import Mathlib

/-!
Shallow embedding of the anonymous-chat backend actor
(`src/backend/main.mo`, snapshot with nonce-based send deduplication).

The actor's mutable fields (`nextMessageId`, `activeRooms`, `messages`)
become an explicit `ActorState` record; each public function becomes a
Lean function taking and returning that state.  `Time.now()` is modelled
by an explicit `now : Int` argument (IC time in nanoseconds).
`Runtime.trap` aborts and rolls back the whole call, so fallible
operations return `Except Err`, an error meaning the state is unchanged.
`Storage.ExternalBlob` is an opaque reference; we model it as `String`.
Motoko's `List` values are mutable, but every use in the source is
observationally append/filter/map on the list held in the room map, so
the embedding threads the updated lists through the map explicitly.
-/

/-- Opaque blob reference (`Storage.ExternalBlob`); never interpreted. -/
abbrev ExternalBlob := String

/-- Source type `Reaction = { userId; emoji }`. -/
structure Reaction where
  userId : String
  emoji : String
deriving DecidableEq, Repr

/-- Stored message record (type `Message` in the source). -/
structure Message where
  id : Nat
  content : String
  timestamp : Int
  nickname : String
  replyToId : Option Nat
  imageUrl : Option ExternalBlob
  videoUrl : Option ExternalBlob
  audioUrl : Option ExternalBlob
  isEdited : Bool
  reactions : List Reaction
  owner : String
  nonce : Option String
deriving DecidableEq, Repr

/-- Read-only projection returned by the queries (type `MessageView`). -/
structure MessageView where
  id : Nat
  content : String
  timestamp : Int
  nickname : String
  replyToId : Option Nat
  imageUrl : Option ExternalBlob
  videoUrl : Option ExternalBlob
  audioUrl : Option ExternalBlob
  isEdited : Bool
  reactions : List Reaction
  owner : String
  nonce : Option String
deriving DecidableEq, Repr

/-- The distinct `Runtime.trap` messages of the source. -/
inductive Err where
  | emptyNickname
  | nicknameTooLong
  | emptyCode
  | codeTooLong
  | roomAlreadyExists
  | notAuthorized
deriving DecidableEq, Repr

/-- Lookup in an association-list map (`Map.get`). -/
def mapGet {α : Type} : List (String × α) → String → Option α
  | [], _ => none
  | (k, v) :: rest, key => if k = key then some v else mapGet rest key

/-- Insert-or-replace in an association-list map (`Map.add`). -/
def mapAdd {α : Type} : List (String × α) → String → α → List (String × α)
  | [], key, val => [(key, val)]
  | (k, v) :: rest, key, val =>
    if k = key then (key, val) :: rest else (k, v) :: mapAdd rest key val

/-- Key removal in an association-list map (`Map.remove`). -/
def mapRemove {α : Type} : List (String × α) → String → List (String × α)
  | [], _ => []
  | (k, v) :: rest, key => if k = key then rest else (k, v) :: mapRemove rest key

/-- Motoko `Text.trim(#char ' ')`: strip leading and trailing spaces. -/
def trimSpaces (s : String) : String :=
  String.mk (((s.data.dropWhile (fun c => c = ' ')).reverse.dropWhile
    (fun c => c = ' ')).reverse)

/-- Source constant `messageTTL = 24 * 60 * 60 * 1_000_000_000` ns. -/
def messageTTL : Int := 24 * 60 * 60 * 1000000000

/-- The actor's mutable state: `nextMessageId`, `activeRooms`, `messages`. -/
structure ActorState where
  nextMessageId : Nat
  activeRooms : List String
  messages : List (String × List Message)
deriving DecidableEq, Repr

/-- State of a freshly installed actor. -/
def initState : ActorState :=
  { nextMessageId := 0, activeRooms := [], messages := [] }

/-- The message list of a room, `[]` when the room has no bucket. -/
def roomMsgs (s : ActorState) (roomId : String) : List Message :=
  (mapGet s.messages roomId).getD []

/-- Function `validateNickname`: trim, trap when empty or over 20 chars. -/
def validateNickname (input : String) : Except Err String :=
  let trimmed := trimSpaces input
  if trimmed.length = 0 then .error .emptyNickname
  else if trimmed.length > 20 then .error .nicknameTooLong
  else .ok trimmed

/-- Function `validateJoinCode`: trap when the trimmed code is empty or over 30 chars. -/
def validateJoinCode (joinCode : String) : Except Err Unit :=
  let trimmed := trimSpaces joinCode
  if trimmed.length = 0 then .error .emptyCode
  else if trimmed.length > 30 then .error .codeTooLong
  else .ok ()

/-- Query `roomExists`: nonempty trimmed code that is in `activeRooms`. -/
def roomExists (s : ActorState) (roomId : String) : Bool :=
  let trimmed := trimSpaces roomId
  decide (0 < trimmed.length) && s.activeRooms.contains trimmed

/-- Function `createRoom`: validate, trap on existing code, else add the raw code. -/
def createRoom (s : ActorState) (joinCode : String) :
    Except Err (String × ActorState) :=
  match validateJoinCode joinCode with
  | .error e => .error e
  | .ok _ =>
    if s.activeRooms.contains joinCode then .error .roomAlreadyExists
    else .ok (joinCode, { s with activeRooms := s.activeRooms ++ [joinCode] })

/-- Predicate `isNotExpired`: the message's age is at most `messageTTL`. -/
def isNotExpired (now : Int) (message : Message) : Bool :=
  decide (now - message.timestamp ≤ messageTTL)

/-- Projection `convertMessageToView`: field-for-field copy to `MessageView`. -/
def convertMessageToView (message : Message) : MessageView :=
  { id := message.id
    content := message.content
    timestamp := message.timestamp
    nickname := message.nickname
    replyToId := message.replyToId
    imageUrl := message.imageUrl
    videoUrl := message.videoUrl
    audioUrl := message.audioUrl
    isEdited := message.isEdited
    reactions := message.reactions
    owner := message.owner
    nonce := message.nonce }

/-- Query `getMessages`: validate the code, then the room's non-expired
messages in stored order (empty when the room has no bucket). -/
def getMessages (s : ActorState) (roomId : String) (now : Int) :
    Except Err (List MessageView) :=
  match validateJoinCode roomId with
  | .error e => .error e
  | .ok _ =>
    match mapGet s.messages roomId with
    | none => .ok []
    | some msgs =>
      .ok ((msgs.filter (isNotExpired now)).map convertMessageToView)

/-- Query `fetchMessagesAfterId`: non-expired messages with `id > lastId`. -/
def fetchMessagesAfterId (s : ActorState) (roomId : String) (lastId : Nat)
    (now : Int) : Except Err (List MessageView) :=
  match validateJoinCode roomId with
  | .error e => .error e
  | .ok _ =>
    match mapGet s.messages roomId with
    | none => .ok []
    | some msgs =>
      .ok ((msgs.filter
        (fun msg => isNotExpired now msg && decide (lastId < msg.id))).map
          convertMessageToView)

/-- The nonce comparison inside `sendMessage`'s duplicate search. -/
def nonceMatches (nonce : String) (msg : Message) : Bool :=
  match msg.nonce with
  | none => false
  | some existingNonce => existingNonce == nonce

/-- Function `sendMessage`: validate nickname and code, ensure the room's bucket
exists (creating it when absent — the source never checks `activeRooms`),
return the id of an existing message with the same nonce when its owner
and content match, otherwise allocate the next global id and append. -/
def sendMessage (s : ActorState) (roomId content nickname userId : String)
    (replyToId : Option Nat) (image video audio : Option ExternalBlob)
    (nonce : String) (now : Int) : Except Err (Nat × ActorState) :=
  match validateNickname nickname with
  | .error e => .error e
  | .ok validNickname =>
  match validateJoinCode roomId with
  | .error e => .error e
  | .ok _ =>
  let s1 : ActorState :=
    match mapGet s.messages roomId with
    | none => { s with messages := mapAdd s.messages roomId [] }
    | some _ => s
  let roomMessages := (mapGet s1.messages roomId).getD []
  let dupId : Option Nat :=
    match roomMessages.find? (nonceMatches nonce) with
    | some duplicate =>
      if duplicate.owner == userId && duplicate.content == content then
        some duplicate.id
      else none
    | none => none
  match dupId with
  | some existingId => .ok (existingId, s1)
  | none =>
    let messageId := s.nextMessageId
    let newMessage : Message :=
      { id := messageId
        content := content
        timestamp := now
        nickname := validNickname
        replyToId := replyToId
        imageUrl := image
        videoUrl := video
        audioUrl := audio
        isEdited := false
        reactions := []
        owner := userId
        nonce := some nonce }
    .ok (messageId,
      { s1 with
        nextMessageId := s.nextMessageId + 1
        messages := mapAdd s1.messages roomId (roomMessages ++ [newMessage]) })

/-- The per-message update applied by a successful `editMessage`. -/
def editUpdate (messageId : Nat) (newContent : String)
    (newImage newVideo newAudio : Option ExternalBlob) (msg : Message) :
    Message :=
  if msg.id == messageId then
    { msg with
      content := newContent
      isEdited := true
      imageUrl := newImage
      videoUrl := newVideo
      audioUrl := newAudio }
  else msg

/-- Function `editMessage`: `false` when the room bucket, the message, or the
ownership check fails (state untouched); otherwise rewrite the matching
message's content and media and set `isEdited`. -/
def editMessage (s : ActorState) (roomId : String) (messageId : Nat)
    (userId newContent : String)
    (newImage newVideo newAudio : Option ExternalBlob) :
    Except Err (Bool × ActorState) :=
  match validateJoinCode roomId with
  | .error e => .error e
  | .ok _ =>
  match mapGet s.messages roomId with
  | none => .ok (false, s)
  | some msgs =>
    match msgs.find? (fun msg => msg.id == messageId) with
    | none => .ok (false, s)
    | some targetMsg =>
      if targetMsg.owner != userId then .ok (false, s)
      else
        let updatedMessages :=
          msgs.map (editUpdate messageId newContent newImage newVideo newAudio)
        .ok (true, { s with messages := mapAdd s.messages roomId updatedMessages })

/-- Function `deleteMessage`: same ownership contract; remove the matching message. -/
def deleteMessage (s : ActorState) (roomId : String) (messageId : Nat)
    (userId : String) : Except Err (Bool × ActorState) :=
  match validateJoinCode roomId with
  | .error e => .error e
  | .ok _ =>
  match mapGet s.messages roomId with
  | none => .ok (false, s)
  | some msgs =>
    match msgs.find? (fun msg => msg.id == messageId) with
    | none => .ok (false, s)
    | some targetMsg =>
      if targetMsg.owner != userId then .ok (false, s)
      else
        let filteredMessages := msgs.filter (fun msg => msg.id != messageId)
        .ok (true, { s with messages := mapAdd s.messages roomId filteredMessages })

/-- The per-message update applied by `addReaction`. -/
def addReactionUpdate (messageId : Nat) (userId emoji : String)
    (msg : Message) : Message :=
  if msg.id == messageId then
    { msg with reactions := msg.reactions ++ [{ userId := userId, emoji := emoji }] }
  else msg

/-- Function `addReaction`: `false` only when the room has no bucket; otherwise
append the `(userId, emoji)` entry to the matching message (no
deduplication, no check that the message exists) and return `true`. -/
def addReaction (s : ActorState) (roomId : String) (messageId : Nat)
    (userId emoji : String) : Except Err (Bool × ActorState) :=
  match validateJoinCode roomId with
  | .error e => .error e
  | .ok _ =>
  match mapGet s.messages roomId with
  | none => .ok (false, s)
  | some msgs =>
    let updatedMessages := msgs.map (addReactionUpdate messageId userId emoji)
    .ok (true, { s with messages := mapAdd s.messages roomId updatedMessages })

/-- The per-message update applied by `removeReaction`. -/
def removeReactionUpdate (messageId : Nat) (userId emoji : String)
    (msg : Message) : Message :=
  if msg.id == messageId then
    { msg with
      reactions := msg.reactions.filter
        (fun reaction =>
          !(reaction.userId == userId && reaction.emoji == emoji)) }
  else msg

/-- Function `removeReaction`: `false` only when the room has no bucket; otherwise
drop every matching `(userId, emoji)` entry and return `true`. -/
def removeReaction (s : ActorState) (roomId : String) (messageId : Nat)
    (userId emoji : String) : Except Err (Bool × ActorState) :=
  match validateJoinCode roomId with
  | .error e => .error e
  | .ok _ =>
  match mapGet s.messages roomId with
  | none => .ok (false, s)
  | some msgs =>
    let updatedMessages := msgs.map (removeReactionUpdate messageId userId emoji)
    .ok (true, { s with messages := mapAdd s.messages roomId updatedMessages })

/-- Function `pruneExpiredMessages` (admin-gated): filter every room's list to
non-expired messages, then drop buckets that are empty and not in
`activeRooms`. -/
def pruneExpiredMessages (s : ActorState) (now : Int) (callerIsAdmin : Bool) :
    Except Err ActorState :=
  if !callerIsAdmin then .error .notAuthorized
  else
    let pruned := s.messages.map
      (fun e => (e.1, e.2.filter (fun msg => decide (now - msg.timestamp ≤ messageTTL))))
    let cleaned := pruned.filter
      (fun e => !(decide (e.2.length = 0) && !(s.activeRooms.contains e.1)))
    .ok { s with messages := cleaned }

/-- One call to a state-mutating public entry point, with its `Time.now()`
reading where the call reads the clock. -/
inductive Op where
  | createRoom (joinCode : String)
  | sendMessage (roomId content nickname userId : String)
      (replyToId : Option Nat) (image video audio : Option ExternalBlob)
      (nonce : String) (now : Int)
  | editMessage (roomId : String) (messageId : Nat) (userId newContent : String)
      (newImage newVideo newAudio : Option ExternalBlob)
  | deleteMessage (roomId : String) (messageId : Nat) (userId : String)
  | addReaction (roomId : String) (messageId : Nat) (userId emoji : String)
  | removeReaction (roomId : String) (messageId : Nat) (userId emoji : String)
  | prune (now : Int) (callerIsAdmin : Bool)

/-- The state after one call; a trap (`Except.error`) rolls the call back. -/
def step (s : ActorState) : Op → ActorState
  | .createRoom c =>
    match createRoom s c with
    | .ok (_, s') => s'
    | .error _ => s
  | .sendMessage roomId content nickname userId replyToId image video audio nonce now =>
    match sendMessage s roomId content nickname userId replyToId image video audio nonce now with
    | .ok (_, s') => s'
    | .error _ => s
  | .editMessage roomId messageId userId newContent newImage newVideo newAudio =>
    match editMessage s roomId messageId userId newContent newImage newVideo newAudio with
    | .ok (_, s') => s'
    | .error _ => s
  | .deleteMessage roomId messageId userId =>
    match deleteMessage s roomId messageId userId with
    | .ok (_, s') => s'
    | .error _ => s
  | .addReaction roomId messageId userId emoji =>
    match addReaction s roomId messageId userId emoji with
    | .ok (_, s') => s'
    | .error _ => s
  | .removeReaction roomId messageId userId emoji =>
    match removeReaction s roomId messageId userId emoji with
    | .ok (_, s') => s'
    | .error _ => s
  | .prune now callerIsAdmin =>
    match pruneExpiredMessages s now callerIsAdmin with
    | .ok s' => s'
    | .error _ => s

/-- States reachable from a fresh install by public calls. -/
inductive ReachableState : ActorState → Prop where
  | init : ReachableState initState
  | next {s : ActorState} (op : Op) : ReachableState s → ReachableState (step s op)

/-- Recognizer for `Op.sendMessage`, used to restrict traces. -/
def Op.isSend : Op → Bool
  | .sendMessage _ _ _ _ _ _ _ _ _ _ => true
  | _ => false

/-- The id-ordering and id-freshness invariant of the store: every room's
list carries strictly increasing ids, all below `nextMessageId`. -/
def StoreInv (s : ActorState) : Prop :=
  ∀ e ∈ s.messages, e.2.Pairwise (fun a b => a.id < b.id) ∧
    ∀ m ∈ e.2, m.id < s.nextMessageId

/-- The largest id in a fetch result (`0` when the result is empty); the
spec's `lastIdAtT0`. -/
def maxId (vs : List MessageView) : Nat :=
  vs.foldr (fun v acc => max v.id acc) 0

/-- Union of two view sequences deduplicated by id, keeping the first
sequence and appending the members of the second whose id is new. -/
def unionById (a b : List MessageView) : List MessageView :=
  a ++ b.filter (fun v => !(a.any (fun w => w.id == v.id)))

/-- A view is non-expired at `now` (same TTL test as `isNotExpired`). -/
def viewNotExpired (now : Int) (v : MessageView) : Bool :=
  decide (now - v.timestamp ≤ messageTTL)

/-- Concrete message fixture used by witnesses: id 0, owner `u1`,
nonce `n`, sent at time 0 into room `r`. -/
def msg0 : Message :=
  { id := 0, content := "c1", timestamp := 0, nickname := "alice",
    replyToId := none, imageUrl := none, videoUrl := none,
    audioUrl := none, isEdited := false, reactions := [],
    owner := "u1", nonce := some "n" }

/-- Concrete state fixture used by witnesses: room `r` created and
holding just `msg0`; reachable as
`step (step initState (Op.createRoom "r")) (Op.sendMessage "r" "c1" "alice" "u1" none none none none "n" 0)`. -/
def state1 : ActorState :=
  { nextMessageId := 1, activeRooms := ["r"], messages := [("r", [msg0])] }

/-- Fixture: `msg0` with an image attached. -/
def msgMedia : Message := { msg0 with imageUrl := some "img" }

/-- Fixture: room `r` holding just `msgMedia`. -/
def stateMedia : ActorState :=
  { nextMessageId := 1, activeRooms := ["r"], messages := [("r", [msgMedia])] }

/-- Fixture: `msg0` after `editMessage` to content `c2` with no media. -/
def msg0edited : Message :=
  { msg0 with
    content := "c2"
    isEdited := true
    imageUrl := none
    videoUrl := none
    audioUrl := none }

/-- Fixture: `state1` after one `addReaction("r", 0, "u2", "heart")`. -/
def stateR1 : ActorState :=
  { nextMessageId := 1, activeRooms := ["r"],
    messages := [("r", [{ msg0 with
      reactions := [{ userId := "u2", emoji := "heart" }] }])] }

/-- Fixture: `state1` after two `addReaction("r", 0, "u2", "heart")`. -/
def stateR2 : ActorState :=
  { nextMessageId := 1, activeRooms := ["r"],
    messages := [("r", [{ msg0 with
      reactions := [{ userId := "u2", emoji := "heart" },
                    { userId := "u2", emoji := "heart" }] }])] }

/-- Fixture: a second message reusing nonce `n` with another owner —
created by a real `sendMessage` replay with mismatching owner/content. -/
def msg1n : Message :=
  { id := 1, content := "c2", timestamp := 0, nickname := "alice",
    replyToId := none, imageUrl := none, videoUrl := none,
    audioUrl := none, isEdited := false, reactions := [],
    owner := "u2", nonce := some "n" }

/-- Fixture: `msg1n` with id 2. -/
def msg2n : Message := { msg1n with id := 2 }

/-- Fixture: `msg1n` with id 3. -/
def msg3n : Message := { msg1n with id := 3 }

/-- Fixture: the reachable state holding `msg0` and `msg1n` in room `r`
(two different owners sharing nonce `n`). -/
def stateN2 : ActorState :=
  { nextMessageId := 2, activeRooms := ["r"], messages := [("r", [msg0, msg1n])] }

/-- Fixture: `stateN2` after one replay of the `u2` send. -/
def stateN3 : ActorState :=
  { nextMessageId := 3, activeRooms := ["r"],
    messages := [("r", [msg0, msg1n, msg2n])] }

/-- Fixture: `stateN3` after a second identical replay. -/
def stateN4 : ActorState :=
  { nextMessageId := 4, activeRooms := ["r"],
    messages := [("r", [msg0, msg1n, msg2n, msg3n])] }

/-- Fixture: the message stored by sending `hi` to the never-created
room `room1` of a fresh actor. -/
def msgHi : Message :=
  { id := 0, content := "hi", timestamp := 0, nickname := "alice",
    replyToId := none, imageUrl := none, videoUrl := none,
    audioUrl := none, isEdited := false, reactions := [],
    owner := "u1", nonce := some "n1" }

/-- Fixture: the state after that send — the bucket exists although the
room was never created. -/
def stateHi : ActorState :=
  { nextMessageId := 1, activeRooms := [], messages := [("room1", [msgHi])] }

/-- The record `sendMessage` appends on its creation path. -/
def newMsg (i : Nat) (content nick userId : String) (replyToId : Option Nat)
    (image video audio : Option ExternalBlob) (nonce : String) (now : Int) :
    Message :=
  { id := i, content := content, timestamp := now, nickname := nick,
    replyToId := replyToId, imageUrl := image, videoUrl := video,
    audioUrl := audio, isEdited := false, reactions := [],
    owner := userId, nonce := some nonce }

/-- Fixture: `state1` after the owner edits message 0 to `c2`. -/
def stateEdited : ActorState :=
  { nextMessageId := 1, activeRooms := ["r"], messages := [("r", [msg0edited])] }

/-- Fixture: the message appended by the send between the two C7
snapshots (id 1, content `c4`, nonce `n4`, time 5). -/
def msg4 : Message :=
  { id := 1, content := "c4", timestamp := 5, nickname := "alice",
    replyToId := none, imageUrl := none, videoUrl := none,
    audioUrl := none, isEdited := false, reactions := [],
    owner := "u1", nonce := some "n4" }

/-! ### Association-map lemmas -/

theorem mapGet_mapAdd_self {α : Type} (m : List (String × α)) (k : String)
    (v : α) : mapGet (mapAdd m k v) k = some v := by
  induction m with
  | nil => simp [mapAdd, mapGet]
  | cons e rest ih =>
    obtain ⟨k', v'⟩ := e
    by_cases h : k' = k
    · simp [mapAdd, h, mapGet]
    · simp [mapAdd, h, mapGet, ih]

theorem mapGet_mapAdd_ne {α : Type} (m : List (String × α)) (k k' : String)
    (v : α) (h : k' ≠ k) : mapGet (mapAdd m k v) k' = mapGet m k' := by
  induction m with
  | nil => simp [mapAdd, mapGet, Ne.symm h]
  | cons e rest ih =>
    obtain ⟨k0, v0⟩ := e
    by_cases h0 : k0 = k
    · subst h0
      simp [mapAdd, mapGet, Ne.symm h]
    · simp only [mapAdd, if_neg h0, mapGet]
      by_cases h1 : k0 = k'
      · simp [h1]
      · simp [h1, ih]

theorem mapAdd_self_of_get {α : Type} (m : List (String × α)) (k : String)
    (v : α) (h : mapGet m k = some v) : mapAdd m k v = m := by
  induction m with
  | nil => simp [mapGet] at h
  | cons e rest ih =>
    obtain ⟨k0, v0⟩ := e
    by_cases h0 : k0 = k
    · subst h0
      simp [mapGet] at h
      simp [mapAdd, h]
    · simp [mapGet, h0] at h
      simp [mapAdd, h0, ih h]

theorem mapAdd_mapAdd_self {α : Type} (m : List (String × α)) (k : String)
    (v w : α) : mapAdd (mapAdd m k v) k w = mapAdd m k w := by
  induction m with
  | nil => simp [mapAdd]
  | cons e rest ih =>
    obtain ⟨k0, v0⟩ := e
    by_cases h0 : k0 = k
    · simp [mapAdd, h0]
    · simp [mapAdd, h0, ih]

theorem mem_of_mapGet {α : Type} {m : List (String × α)} {k : String} {v : α}
    (h : mapGet m k = some v) : (k, v) ∈ m := by
  induction m with
  | nil => simp [mapGet] at h
  | cons e rest ih =>
    obtain ⟨k0, v0⟩ := e
    by_cases h0 : k0 = k
    · subst h0
      simp [mapGet] at h
      simp [h]
    · simp [mapGet, h0] at h
      simp [ih h]

theorem mem_mapAdd {α : Type} {m : List (String × α)} {k : String} {v : α}
    {e : String × α} (h : e ∈ mapAdd m k v) : e = (k, v) ∨ e ∈ m := by
  induction m with
  | nil => simpa [mapAdd] using h
  | cons e0 rest ih =>
    obtain ⟨k0, v0⟩ := e0
    by_cases h0 : k0 = k
    · simp [mapAdd, h0] at h
      rcases h with h | h
      · left; simp [h]
      · right; simp [h]
    · simp [mapAdd, h0] at h
      rcases h with h | h
      · right; simp [h]
      · rcases ih h with h1 | h1
        · left; exact h1
        · right; simp [h1]

theorem roomMsgs_mapAdd_self (s : ActorState) (rs : List String → List String)
    (n : Nat) (k : String) (v : List Message) :
    roomMsgs { nextMessageId := n, activeRooms := rs s.activeRooms,
               messages := mapAdd s.messages k v } k = v := by
  simp [roomMsgs, mapGet_mapAdd_self]

/-! ### Id-preservation of the per-message updates -/

theorem editUpdate_id (messageId : Nat) (newContent : String)
    (newImage newVideo newAudio : Option ExternalBlob) (m : Message) :
    (editUpdate messageId newContent newImage newVideo newAudio m).id = m.id := by
  unfold editUpdate
  split <;> rfl

theorem addReactionUpdate_id (messageId : Nat) (userId emoji : String)
    (m : Message) : (addReactionUpdate messageId userId emoji m).id = m.id := by
  unfold addReactionUpdate
  split <;> rfl

theorem removeReactionUpdate_id (messageId : Nat) (userId emoji : String)
    (m : Message) : (removeReactionUpdate messageId userId emoji m).id = m.id := by
  unfold removeReactionUpdate
  split <;> rfl

theorem pairwise_ids_map {l : List Message} {f : Message → Message}
    (hf : ∀ m, (f m).id = m.id)
    (h : l.Pairwise (fun a b => a.id < b.id)) :
    (l.map f).Pairwise (fun a b => a.id < b.id) := by
  rw [List.pairwise_map]
  exact h.imp (fun hab => by simpa [hf] using hab)

/-! ### Preservation of the store invariant -/

theorem storeInv_update {s : ActorState} (n : Nat) (rooms : List String)
    (k : String) (v : List Message) (h : StoreInv s)
    (hle : s.nextMessageId ≤ n)
    (hp : v.Pairwise (fun a b => a.id < b.id))
    (hb : ∀ m ∈ v, m.id < n) :
    StoreInv { nextMessageId := n, activeRooms := rooms,
               messages := mapAdd s.messages k v } := by
  intro e he
  rcases mem_mapAdd he with h1 | h1
  · subst h1
    exact ⟨hp, hb⟩
  · obtain ⟨hp', hb'⟩ := h e h1
    exact ⟨hp', fun m hm => lt_of_lt_of_le (hb' m hm) hle⟩

theorem storeInv_createRoom {s s' : ActorState} {c c' : String}
    (h : StoreInv s) (hc : createRoom s c = .ok (c', s')) : StoreInv s' := by
  simp only [createRoom] at hc
  split at hc
  · exact absurd hc (by simp)
  · split at hc
    · exact absurd hc (by simp)
    · simp only [Except.ok.injEq, Prod.mk.injEq] at hc
      obtain ⟨-, rfl⟩ := hc
      exact h

theorem storeInv_sendMessage {s s' : ActorState}
    {roomId content nickname userId : String} {replyToId : Option Nat}
    {image video audio : Option ExternalBlob} {nonce : String} {now : Int}
    {mid : Nat} (h : StoreInv s)
    (hc : sendMessage s roomId content nickname userId replyToId image video
      audio nonce now = .ok (mid, s')) : StoreInv s' := by
  simp only [sendMessage] at hc
  split at hc
  · exact absurd hc (by simp)
  · split at hc
    · exact absurd hc (by simp)
    · rcases hmg : mapGet s.messages roomId with _ | msgs <;>
        simp only [hmg, Option.getD_some, mapGet_mapAdd_self] at hc
      · -- no bucket: it is created and the new message appended
        simp only [List.find?_nil, Option.getD_none] at hc
        simp only [Except.ok.injEq, Prod.mk.injEq] at hc
        obtain ⟨-, rfl⟩ := hc
        simp only [mapAdd_mapAdd_self, List.nil_append]
        exact storeInv_update _ _ _ _ h (Nat.le_succ _)
          (List.pairwise_singleton _ _)
          (by intro m hm; simp at hm; subst hm; exact Nat.lt_succ_self _)
      · -- existing bucket
        obtain ⟨hpm, hbm⟩ := h (roomId, msgs) (mem_of_mapGet hmg)
        rcases hf : msgs.find? (nonceMatches nonce) with _ | dup <;>
          simp only [hf] at hc
        · simp only [Except.ok.injEq, Prod.mk.injEq] at hc
          obtain ⟨-, rfl⟩ := hc
          refine storeInv_update _ _ _ _ h (Nat.le_succ _) ?_ ?_
          · rw [List.pairwise_append]
            refine ⟨hpm, List.pairwise_singleton _ _, ?_⟩
            intro a ha b hb
            simp at hb
            subst hb
            exact hbm a ha
          · intro m hm
            rcases List.mem_append.1 hm with h1 | h1
            · exact Nat.lt_succ_of_lt (hbm m h1)
            · simp at h1
              subst h1
              exact Nat.lt_succ_self _
        · split at hc
          · simp only [Except.ok.injEq, Prod.mk.injEq] at hc
            obtain ⟨-, rfl⟩ := hc
            exact h
          · simp only [Except.ok.injEq, Prod.mk.injEq] at hc
            obtain ⟨-, rfl⟩ := hc
            refine storeInv_update _ _ _ _ h (Nat.le_succ _) ?_ ?_
            · rw [List.pairwise_append]
              refine ⟨hpm, List.pairwise_singleton _ _, ?_⟩
              intro a ha b hb
              simp at hb
              subst hb
              exact hbm a ha
            · intro m hm
              rcases List.mem_append.1 hm with h1 | h1
              · exact Nat.lt_succ_of_lt (hbm m h1)
              · simp at h1
                subst h1
                exact Nat.lt_succ_self _

theorem storeInv_editMessage {s s' : ActorState} {roomId : String}
    {messageId : Nat} {userId newContent : String}
    {newImage newVideo newAudio : Option ExternalBlob} {b : Bool}
    (h : StoreInv s)
    (hc : editMessage s roomId messageId userId newContent newImage newVideo
      newAudio = .ok (b, s')) : StoreInv s' := by
  simp only [editMessage] at hc
  split at hc
  · exact absurd hc (by simp)
  · rcases hmg : mapGet s.messages roomId with _ | msgs <;>
      simp only [hmg] at hc
    · simp only [Except.ok.injEq, Prod.mk.injEq] at hc
      obtain ⟨-, rfl⟩ := hc
      exact h
    · obtain ⟨hpm, hbm⟩ := h (roomId, msgs) (mem_of_mapGet hmg)
      split at hc
      · simp only [Except.ok.injEq, Prod.mk.injEq] at hc
        obtain ⟨-, rfl⟩ := hc
        exact h
      · split at hc
        · simp only [Except.ok.injEq, Prod.mk.injEq] at hc
          obtain ⟨-, rfl⟩ := hc
          exact h
        · simp only [Except.ok.injEq, Prod.mk.injEq] at hc
          obtain ⟨-, rfl⟩ := hc
          refine storeInv_update _ _ _ _ h (le_refl _)
            (pairwise_ids_map (editUpdate_id _ _ _ _ _) hpm) ?_
          intro m hm
          rcases List.mem_map.1 hm with ⟨m0, hm0, rfl⟩
          rw [editUpdate_id]
          exact hbm m0 hm0

theorem storeInv_deleteMessage {s s' : ActorState} {roomId : String}
    {messageId : Nat} {userId : String} {b : Bool} (h : StoreInv s)
    (hc : deleteMessage s roomId messageId userId = .ok (b, s')) :
    StoreInv s' := by
  simp only [deleteMessage] at hc
  split at hc
  · exact absurd hc (by simp)
  · rcases hmg : mapGet s.messages roomId with _ | msgs <;>
      simp only [hmg] at hc
    · simp only [Except.ok.injEq, Prod.mk.injEq] at hc
      obtain ⟨-, rfl⟩ := hc
      exact h
    · obtain ⟨hpm, hbm⟩ := h (roomId, msgs) (mem_of_mapGet hmg)
      split at hc
      · simp only [Except.ok.injEq, Prod.mk.injEq] at hc
        obtain ⟨-, rfl⟩ := hc
        exact h
      · split at hc
        · simp only [Except.ok.injEq, Prod.mk.injEq] at hc
          obtain ⟨-, rfl⟩ := hc
          exact h
        · simp only [Except.ok.injEq, Prod.mk.injEq] at hc
          obtain ⟨-, rfl⟩ := hc
          refine storeInv_update _ _ _ _ h (le_refl _)
            (hpm.sublist (List.filter_sublist _)) ?_
          intro m hm
          exact hbm m (List.mem_of_mem_filter hm)

theorem storeInv_addReaction {s s' : ActorState} {roomId : String}
    {messageId : Nat} {userId emoji : String} {b : Bool} (h : StoreInv s)
    (hc : addReaction s roomId messageId userId emoji = .ok (b, s')) :
    StoreInv s' := by
  simp only [addReaction] at hc
  split at hc
  · exact absurd hc (by simp)
  · rcases hmg : mapGet s.messages roomId with _ | msgs <;>
      simp only [hmg] at hc
    · simp only [Except.ok.injEq, Prod.mk.injEq] at hc
      obtain ⟨-, rfl⟩ := hc
      exact h
    · obtain ⟨hpm, hbm⟩ := h (roomId, msgs) (mem_of_mapGet hmg)
      simp only [Except.ok.injEq, Prod.mk.injEq] at hc
      obtain ⟨-, rfl⟩ := hc
      refine storeInv_update _ _ _ _ h (le_refl _)
        (pairwise_ids_map (addReactionUpdate_id _ _ _) hpm) ?_
      intro m hm
      rcases List.mem_map.1 hm with ⟨m0, hm0, rfl⟩
      rw [addReactionUpdate_id]
      exact hbm m0 hm0

theorem storeInv_removeReaction {s s' : ActorState} {roomId : String}
    {messageId : Nat} {userId emoji : String} {b : Bool} (h : StoreInv s)
    (hc : removeReaction s roomId messageId userId emoji = .ok (b, s')) :
    StoreInv s' := by
  simp only [removeReaction] at hc
  split at hc
  · exact absurd hc (by simp)
  · rcases hmg : mapGet s.messages roomId with _ | msgs <;>
      simp only [hmg] at hc
    · simp only [Except.ok.injEq, Prod.mk.injEq] at hc
      obtain ⟨-, rfl⟩ := hc
      exact h
    · obtain ⟨hpm, hbm⟩ := h (roomId, msgs) (mem_of_mapGet hmg)
      simp only [Except.ok.injEq, Prod.mk.injEq] at hc
      obtain ⟨-, rfl⟩ := hc
      refine storeInv_update _ _ _ _ h (le_refl _)
        (pairwise_ids_map (removeReactionUpdate_id _ _ _) hpm) ?_
      intro m hm
      rcases List.mem_map.1 hm with ⟨m0, hm0, rfl⟩
      rw [removeReactionUpdate_id]
      exact hbm m0 hm0

theorem storeInv_prune {s s' : ActorState} {now : Int} {adm : Bool}
    (h : StoreInv s) (hc : pruneExpiredMessages s now adm = .ok s') :
    StoreInv s' := by
  simp only [pruneExpiredMessages] at hc
  split at hc
  · exact absurd hc (by simp)
  · simp only [Except.ok.injEq] at hc
    subst hc
    intro e he
    have he1 := List.mem_of_mem_filter he
    rcases List.mem_map.1 he1 with ⟨e0, he0, rfl⟩
    obtain ⟨hpm, hbm⟩ := h e0 he0
    exact ⟨hpm.sublist (List.filter_sublist _),
      fun m hm => hbm m (List.mem_of_mem_filter hm)⟩

theorem storeInv_init : StoreInv initState := by
  intro e he
  simp [initState] at he

theorem storeInv_step {s : ActorState} (h : StoreInv s) (op : Op) :
    StoreInv (step s op) := by
  cases op with
  | createRoom c =>
    simp only [step]
    rcases hc : createRoom s c with e | p
    · exact h
    · exact storeInv_createRoom h (by rw [hc])
  | sendMessage roomId content nickname userId replyToId image video audio nonce now =>
    simp only [step]
    rcases hc : sendMessage s roomId content nickname userId replyToId image video audio nonce now with e | p
    · exact h
    · exact storeInv_sendMessage h (by rw [hc])
  | editMessage roomId messageId userId newContent newImage newVideo newAudio =>
    simp only [step]
    rcases hc : editMessage s roomId messageId userId newContent newImage newVideo newAudio with e | p
    · exact h
    · exact storeInv_editMessage h (by rw [hc])
  | deleteMessage roomId messageId userId =>
    simp only [step]
    rcases hc : deleteMessage s roomId messageId userId with e | p
    · exact h
    · exact storeInv_deleteMessage h (by rw [hc])
  | addReaction roomId messageId userId emoji =>
    simp only [step]
    rcases hc : addReaction s roomId messageId userId emoji with e | p
    · exact h
    · exact storeInv_addReaction h (by rw [hc])
  | removeReaction roomId messageId userId emoji =>
    simp only [step]
    rcases hc : removeReaction s roomId messageId userId emoji with e | p
    · exact h
    · exact storeInv_removeReaction h (by rw [hc])
  | prune now adm =>
    simp only [step]
    rcases hc : pruneExpiredMessages s now adm with e | s2
    · exact h
    · exact storeInv_prune h (by rw [hc])

theorem storeInv_of_reachable {s : ActorState} (h : ReachableState s) :
    StoreInv s := by
  induction h with
  | init => exact storeInv_init
  | next op _ ih => exact storeInv_step ih op

/-! ### Shape of the two queries under a valid room code -/

theorem getMessages_eq (s : ActorState) (roomId : String) (now : Int)
    (hv : validateJoinCode roomId = .ok ()) :
    getMessages s roomId now =
      .ok (((roomMsgs s roomId).filter (isNotExpired now)).map
        convertMessageToView) := by
  simp only [getMessages, hv]
  rcases hmg : mapGet s.messages roomId with _ | msgs <;>
    simp [roomMsgs, hmg]

theorem fetchMessagesAfterId_eq (s : ActorState) (roomId : String)
    (lastId : Nat) (now : Int) (hv : validateJoinCode roomId = .ok ()) :
    fetchMessagesAfterId s roomId lastId now =
      .ok (((roomMsgs s roomId).filter
        (fun msg => isNotExpired now msg && decide (lastId < msg.id))).map
          convertMessageToView) := by
  simp only [fetchMessagesAfterId, hv]
  rcases hmg : mapGet s.messages roomId with _ | msgs <;>
    simp [roomMsgs, hmg]

theorem convert_timestamp (m : Message) :
    (convertMessageToView m).timestamp = m.timestamp := rfl

theorem convert_id (m : Message) : (convertMessageToView m).id = m.id := rfl

/-- C4: a stored message whose age `now − createdAt` exceeds the TTL is
returned by neither `getMessages` nor `fetchMessagesAfterId`, independent
of any pruning: both queries filter with `isNotExpired` at read time. -/
theorem expired_message_invisible (s : ActorState) (room : String)
    (now : Int) (lastId : Nat) (m : Message) (vs fs : List MessageView)
    (_hm : m ∈ roomMsgs s room) (hexp : messageTTL < now - m.timestamp)
    (hg : getMessages s room now = .ok vs)
    (hf : fetchMessagesAfterId s room lastId now = .ok fs) :
    convertMessageToView m ∉ vs ∧ convertMessageToView m ∉ fs := by
  rcases hv : validateJoinCode room with e | u
  · rw [getMessages, hv] at hg
    exact absurd hg (by simp)
  · cases u
    rw [getMessages_eq s room now hv] at hg
    rw [fetchMessagesAfterId_eq s room lastId now hv] at hf
    simp only [Except.ok.injEq] at hg hf
    subst hg
    subst hf
    constructor
    · intro hmem
      rcases List.mem_map.1 hmem with ⟨m', hm', heq⟩
      have ht : m'.timestamp = m.timestamp := by
        have := congrArg MessageView.timestamp heq
        simpa [convert_timestamp] using this
      have hne := List.of_mem_filter hm'
      rw [isNotExpired, ht] at hne
      simp at hne
      omega
    · intro hmem
      rcases List.mem_map.1 hmem with ⟨m', hm', heq⟩
      have ht : m'.timestamp = m.timestamp := by
        have := congrArg MessageView.timestamp heq
        simpa [convert_timestamp] using this
      have hne := List.of_mem_filter hm'
      rw [Bool.and_eq_true] at hne
      have hne1 := hne.1
      rw [isNotExpired, ht] at hne1
      simp at hne1
      omega

/-- Witness for C4 at a concrete expired message. -/
theorem expired_message_invisible_witness :
    convertMessageToView msg0 ∉ ([] : List MessageView) ∧
      convertMessageToView msg0 ∉ ([] : List MessageView) :=
  expired_message_invisible state1 "r" (messageTTL + 1) 0 msg0 [] []
    (by simp [state1, roomMsgs, mapGet]) (by simp [msg0]) (by rfl) (by rfl)

/-- C10: after a successful `editMessage`, every message in the room with
the edited id carries exactly the supplied media arguments — `none`
clears a previously attached image/video/audio rather than keeping it
(the update overwrites all three fields unconditionally). -/
theorem editMessage_media_exact (s s' : ActorState) (room : String)
    (mid : Nat) (userId newContent : String)
    (ni nv na : Option ExternalBlob)
    (h : editMessage s room mid userId newContent ni nv na = .ok (true, s')) :
    ∀ m' ∈ roomMsgs s' room, m'.id = mid →
      m'.imageUrl = ni ∧ m'.videoUrl = nv ∧ m'.audioUrl = na := by
  simp only [editMessage] at h
  split at h
  · exact absurd h (by simp)
  · rcases hmg : mapGet s.messages room with _ | msgs <;> simp only [hmg] at h
    · simp at h
    · split at h
      · simp at h
      · split at h
        · simp at h
        · simp only [Except.ok.injEq, Prod.mk.injEq] at h
          obtain ⟨-, rfl⟩ := h
          intro m' hm' hid
          rw [roomMsgs] at hm'
          simp only [mapGet_mapAdd_self, Option.getD_some] at hm'
          rcases List.mem_map.1 hm' with ⟨m0, hm0, rfl⟩
          by_cases hcond : m0.id = mid
          · simp [editUpdate, hcond]
          · rw [editUpdate_id] at hid
            exact absurd hid hcond

/-- Witness for C10: editing the message that carries an image with
`none` media arguments leaves it with no image, video or audio. -/
theorem editMessage_media_exact_witness :
    msg0edited.imageUrl = none ∧ msg0edited.videoUrl = none ∧
      msg0edited.audioUrl = none :=
  editMessage_media_exact stateMedia
    { nextMessageId := 1, activeRooms := ["r"],
      messages := [("r", [msg0edited])] }
    "r" 0 "u1" "c2" none none none (by rfl) msg0edited
    (by simp [roomMsgs, mapGet]) (by rfl)

/-- C6: for an existing message (found by id in the room), `editMessage`
and `deleteMessage` with a non-owner `userId` return `false` and return
the state unchanged; with the owner they return `true`, rewriting /
removing the target in the room's stored list, which is exactly what the
(pure, store-driven) reads observe. -/
theorem ownership_gating (s : ActorState) (room : String) (mid : Nat)
    (u newContent : String) (ni nv na : Option ExternalBlob)
    (msgs : List Message) (target : Message)
    (hv : validateJoinCode room = .ok ())
    (hmg : mapGet s.messages room = some msgs)
    (hfind : msgs.find? (fun msg => msg.id == mid) = some target) :
    (target.owner ≠ u →
      editMessage s room mid u newContent ni nv na = .ok (false, s) ∧
      deleteMessage s room mid u = .ok (false, s)) ∧
    (target.owner = u →
      editMessage s room mid u newContent ni nv na =
        .ok (true, { s with
          messages := mapAdd s.messages room (msgs.map (editUpdate mid newContent ni nv na)) }) ∧
      deleteMessage s room mid u =
        .ok (true, { s with
          messages := mapAdd s.messages room (msgs.filter (fun msg => msg.id != mid)) })) := by
  constructor
  · intro hne
    constructor
    · simp only [editMessage, hv, hmg, hfind]
      rw [if_pos (by simpa [bne_iff_ne] using hne)]
    · simp only [deleteMessage, hv, hmg, hfind]
      rw [if_pos (by simpa [bne_iff_ne] using hne)]
  · intro heq
    constructor
    · simp only [editMessage, hv, hmg, hfind]
      rw [if_neg (by simp [bne_iff_ne, heq])]
    · simp only [deleteMessage, hv, hmg, hfind]
      rw [if_neg (by simp [bne_iff_ne, heq])]

/-- Witness for C6: in `state1`, a stranger's edit/delete of message 0
fails with the state unchanged, and the owner's edit/delete succeeds
with the mutated store. -/
theorem ownership_gating_witness :
    (editMessage state1 "r" 0 "u2" "c2" none none none = .ok (false, state1) ∧
     deleteMessage state1 "r" 0 "u2" = .ok (false, state1)) ∧
    (editMessage state1 "r" 0 "u1" "c2" none none none =
      .ok (true, { state1 with
        messages := mapAdd state1.messages "r" ([msg0].map (editUpdate 0 "c2" none none none)) }) ∧
     deleteMessage state1 "r" 0 "u1" =
      .ok (true, { state1 with
        messages := mapAdd state1.messages "r" ([msg0].filter (fun msg => msg.id != 0)) })) :=
  ⟨(ownership_gating state1 "r" 0 "u2" "c2" none none none [msg0] msg0
      (by rfl) (by simp [state1, mapGet]) (by simp [msg0])).1
    (by simp [msg0]),
   (ownership_gating state1 "r" 0 "u1" "c2" none none none [msg0] msg0
      (by rfl) (by simp [state1, mapGet]) (by simp [msg0])).2
    (by simp [msg0])⟩

/-- C8 counterexample: in `state1` room `r` holds only message id 0, yet
`addReaction` for the absent message id 99 returns `true` (the claim says
it returns `false` when the message is absent); nothing is stored. -/
theorem addReaction_missing_message_cex :
    roomMsgs state1 "r" = [msg0] ∧ msg0.id = 0 ∧
      addReaction state1 "r" 99 "u2" "heart" = .ok (true, state1) :=
  ⟨rfl, rfl, rfl⟩

/-- C8 amended: `addReaction` returns `false` exactly when the room has
no message bucket; whenever the bucket exists it returns `true` — even if
no message with the given id exists (in which case nothing changes) — and
appends the `(userId, emoji)` entry to every message with that id
unconditionally, even when the pair is already present. -/
theorem addReaction_result (s : ActorState) (room : String) (mid : Nat)
    (u e : String) (hv : validateJoinCode room = .ok ()) :
    (mapGet s.messages room = none →
      addReaction s room mid u e = .ok (false, s)) ∧
    (∀ msgs, mapGet s.messages room = some msgs →
      addReaction s room mid u e =
        .ok (true, { s with
          messages := mapAdd s.messages room (msgs.map (addReactionUpdate mid u e)) })) := by
  constructor
  · intro hmg
    simp only [addReaction, hv, hmg]
  · intro msgs hmg
    simp only [addReaction, hv, hmg]

/-- Witness for C8 (amended) on `state1`. -/
theorem addReaction_result_witness :
    addReaction state1 "r" 0 "u2" "heart" =
      .ok (true, { state1 with
        messages := mapAdd state1.messages "r" ([msg0].map (addReactionUpdate 0 "u2" "heart")) }) :=
  (addReaction_result state1 "r" 0 "u2" "heart" (by rfl)).2 [msg0]
    (by simp [state1, mapGet])

/-- C5 counterexample: two consecutive `addReaction("r", 0, "u2", "heart")`
calls on `state1` leave TWO `(u2, heart)` entries on message 0 — the
store never deduplicates reactions, so "exactly one entry" fails. -/
theorem addReaction_twice_duplicates_cex :
    addReaction state1 "r" 0 "u2" "heart" = .ok (true, stateR1) ∧
    addReaction stateR1 "r" 0 "u2" "heart" = .ok (true, stateR2) ∧
    (roomMsgs stateR2 "r").map Message.reactions =
      [[{ userId := "u2", emoji := "heart" },
        { userId := "u2", emoji := "heart" }]] :=
  ⟨rfl, rfl, rfl⟩

/-- Applying `addReactionUpdate` twice appends the pair twice. -/
theorem addReactionUpdate_twice (mid : Nat) (u e : String) (m : Message) :
    addReactionUpdate mid u e (addReactionUpdate mid u e m) =
      if m.id == mid then
        { m with reactions := m.reactions ++
            [{ userId := u, emoji := e }, { userId := u, emoji := e }] }
      else m := by
  by_cases h : m.id = mid
  · simp [addReactionUpdate, h]
  · simp [addReactionUpdate, h]

/-- C5 amended: `addReaction` appends one `(user, emoji)` entry per call
with no deduplication — two consecutive calls leave two entries on the
target message; `removeReaction` on a pair absent from the target
message (every message with the given id) never errors: it returns
`true` with the state unchanged, whatever other messages hold. -/
theorem reaction_semantics (s : ActorState) (room : String) (mid : Nat)
    (u e : String) (msgs : List Message)
    (hv : validateJoinCode room = .ok ())
    (hmg : mapGet s.messages room = some msgs) :
    (∃ s1 s2, addReaction s room mid u e = .ok (true, s1) ∧
      addReaction s1 room mid u e = .ok (true, s2) ∧
      roomMsgs s2 room = msgs.map (fun m =>
        if m.id == mid then
          { m with reactions := m.reactions ++
              [{ userId := u, emoji := e }, { userId := u, emoji := e }] }
        else m)) ∧
    ((∀ m ∈ msgs, m.id = mid →
        ({ userId := u, emoji := e } : Reaction) ∉ m.reactions) →
      removeReaction s room mid u e = .ok (true, s)) := by
  constructor
  · refine ⟨{ s with
        messages := mapAdd s.messages room (msgs.map (addReactionUpdate mid u e)) },
      { s with
        messages := mapAdd (mapAdd s.messages room (msgs.map (addReactionUpdate mid u e)))
          room ((msgs.map (addReactionUpdate mid u e)).map (addReactionUpdate mid u e)) },
      ?_, ?_, ?_⟩
    · simp only [addReaction, hv, hmg]
    · simp only [addReaction, hv, mapGet_mapAdd_self]
    · rw [roomMsgs]
      simp only [mapAdd_mapAdd_self, mapGet_mapAdd_self, Option.getD_some,
        List.map_map]
      apply List.map_congr_left
      intro m _
      exact addReactionUpdate_twice mid u e m
  · intro habs
    simp only [removeReaction, hv, hmg]
    have h1 : ∀ m ∈ msgs, removeReactionUpdate mid u e m = m := by
      intro m hm
      rw [removeReactionUpdate]
      by_cases h : (m.id == mid) = true
      · have hid : m.id = mid := by simpa using h
        have hfil : m.reactions.filter
            (fun reaction => !(reaction.userId == u && reaction.emoji == e)) =
            m.reactions := by
          apply List.filter_eq_self.2
          intro r hr
          by_cases hru : r.userId = u
          · by_cases hre : r.emoji = e
            · exfalso
              apply habs m hm hid
              have hreq : r = { userId := u, emoji := e } := by
                cases r
                simp_all
              rw [← hreq]
              exact hr
            · simp [hru, hre]
          · simp [hru]
        rw [if_pos h, hfil]
      · rw [if_neg h]
    have hmap : msgs.map (removeReactionUpdate mid u e) = msgs :=
      (List.map_congr_left h1).trans (List.map_id msgs)
    rw [hmap, mapAdd_self_of_get s.messages room msgs hmg]

/-- Witness for C5 (amended) on `state1`. -/
theorem reaction_semantics_witness :
    (∃ s1 s2, addReaction state1 "r" 0 "u2" "heart" = .ok (true, s1) ∧
      addReaction s1 "r" 0 "u2" "heart" = .ok (true, s2) ∧
      roomMsgs s2 "r" = [msg0].map (fun m =>
        if m.id == 0 then
          { m with reactions := m.reactions ++
              [{ userId := "u2", emoji := "heart" },
               { userId := "u2", emoji := "heart" }] }
        else m)) ∧
    ((∀ m ∈ [msg0], m.id = 0 →
        ({ userId := "u2", emoji := "heart" } : Reaction) ∉ m.reactions) →
      removeReaction state1 "r" 0 "u2" "heart" = .ok (true, state1)) :=
  reaction_semantics state1 "r" 0 "u2" "heart" [msg0] (by rfl)
    (by simp [state1, mapGet])

/-- C9 counterexample: `createRoom " a"` succeeds but returns the raw
`" a"` (not the trimmed `"a"`), stores the raw code, and `roomExists`
on the very same input then reports `false` (it looks up the trimmed
form) — both halves of the round-trip in the claim fail. -/
theorem createRoom_untrimmed_cex :
    createRoom initState " a" =
      .ok (" a", { nextMessageId := 0, activeRooms := [" a"], messages := [] }) ∧
    trimSpaces " a" = "a" ∧ (" a" : String) ≠ "a" ∧
    roomExists { nextMessageId := 0, activeRooms := [" a"], messages := [] }
      " a" = false :=
  ⟨rfl, rfl, by decide, rfl⟩

/-- C9 amended: for input codes with no surrounding spaces
(`trimSpaces code = code`) of length 1–30 that do not already exist,
`createRoom` succeeds returning the code itself and `roomExists` then
reports `true`; codes trimming to empty or to more than 30 characters
trap with the empty-code / too-long errors, creating nothing. -/
theorem createRoom_roomExists (s : ActorState) (code : String) :
    (trimSpaces code = code → 0 < code.length → code.length ≤ 30 →
      s.activeRooms.contains code = false →
      createRoom s code =
        .ok (code, { s with activeRooms := s.activeRooms ++ [code] }) ∧
      roomExists { s with activeRooms := s.activeRooms ++ [code] } code = true) ∧
    ((trimSpaces code).length = 0 → createRoom s code = .error .emptyCode) ∧
    (30 < (trimSpaces code).length → createRoom s code = .error .codeTooLong) := by
  refine ⟨?_, ?_, ?_⟩
  · intro htrim hlen hlen30 hcont
    have hv : validateJoinCode code = .ok () := by
      rw [validateJoinCode]
      simp only [htrim]
      rw [if_neg (by omega), if_neg (by omega)]
    constructor
    · simp only [createRoom, hv, hcont]
      simp
    · rw [roomExists]
      simp only [htrim]
      rw [Bool.and_eq_true]
      constructor
      · simp [hlen]
      · simp
  · intro h0
    simp only [createRoom, validateJoinCode]
    rw [if_pos h0]
  · intro h30
    simp only [createRoom, validateJoinCode]
    rw [if_neg (by omega), if_pos (by omega)]

/-- Witness for C9 (amended): creating `abc` in a fresh actor succeeds
and `roomExists "abc"` holds afterwards. -/
theorem createRoom_roomExists_witness :
    createRoom initState "abc" =
      .ok ("abc", { initState with activeRooms := initState.activeRooms ++ ["abc"] }) ∧
    roomExists { initState with activeRooms := initState.activeRooms ++ ["abc"] }
      "abc" = true :=
  (createRoom_roomExists initState "abc").1 (by rfl) (by decide) (by decide)
    (by rfl)

/-- C2 counterexample: `room1` was never created (`roomExists` is
`false`), yet `sendMessage` does not fail — it returns message id 0 and
stores the message, implicitly creating the room's bucket.  The claimed
`RoomNotFound` failure does not exist in the code. -/
theorem sendMessage_no_room_check_cex :
    roomExists initState "room1" = false ∧
    sendMessage initState "room1" "hi" "alice" "u1" none none none none
      "n1" 0 = .ok (0, stateHi) ∧
    roomMsgs stateHi "room1" = [msgHi] :=
  ⟨rfl, rfl, rfl⟩

/-- C2 amended: `sendMessage` performs no room-existence check.  With a
valid nickname and join code, sending to a room that has no message
bucket — in particular to one never created by `createRoom` — succeeds
with the next global id, creates the bucket and stores the message. -/
theorem sendMessage_uncreated_room (s : ActorState)
    (room content nickname userId : String) (replyToId : Option Nat)
    (image video audio : Option ExternalBlob) (nonce : String) (now : Int)
    (nick' : String)
    (hn : validateNickname nickname = .ok nick')
    (hv : validateJoinCode room = .ok ())
    (hmg : mapGet s.messages room = none) :
    sendMessage s room content nickname userId replyToId image video audio
      nonce now =
      .ok (s.nextMessageId,
        { nextMessageId := s.nextMessageId + 1,
          activeRooms := s.activeRooms,
          messages := mapAdd s.messages room
            [{ id := s.nextMessageId, content := content, timestamp := now,
               nickname := nick', replyToId := replyToId, imageUrl := image,
               videoUrl := video, audioUrl := audio, isEdited := false,
               reactions := [], owner := userId, nonce := some nonce }] }) := by
  simp only [sendMessage, hn, hv, hmg, mapGet_mapAdd_self, Option.getD_some,
    List.find?_nil, mapAdd_mapAdd_self, List.nil_append]

/-- Witness for C2 (amended) on a fresh actor. -/
theorem sendMessage_uncreated_room_witness :
    sendMessage initState "room1" "hi" "alice" "u1" none none none none
      "n1" 0 =
      .ok (initState.nextMessageId,
        { nextMessageId := initState.nextMessageId + 1,
          activeRooms := initState.activeRooms,
          messages := mapAdd initState.messages "room1"
            [{ id := initState.nextMessageId, content := "hi", timestamp := 0,
               nickname := "alice", replyToId := none, imageUrl := none,
               videoUrl := none, audioUrl := none, isEdited := false,
               reactions := [], owner := "u1", nonce := some "n1" }] }) :=
  sendMessage_uncreated_room initState "room1" "hi" "alice" "u1" none none
    none none "n1" 0 "alice" (by rfl) (by rfl) (by rfl)

/-- C1 counterexample: in the reachable state `stateN2` (room `r`
created, then `u1` sent `c1` with nonce `n`, then `u2` sent `c2` reusing
nonce `n`), calling `sendMessage` twice with identical room, nonce,
owner `u2` and content `c2` returns two DIFFERENT ids (2, then 3) and
leaves four messages carrying nonce `n`: the duplicate search always
finds `u1`'s first message, whose owner mismatches, so each retry
appends a fresh copy. -/
theorem sendMessage_retry_cex :
    step (step (step initState (Op.createRoom "r"))
        (Op.sendMessage "r" "c1" "alice" "u1" none none none none "n" 0))
      (Op.sendMessage "r" "c2" "alice" "u2" none none none none "n" 0) =
      stateN2 ∧
    sendMessage stateN2 "r" "c2" "alice" "u2" none none none none "n" 0 =
      .ok (2, stateN3) ∧
    sendMessage stateN3 "r" "c2" "alice" "u2" none none none none "n" 0 =
      .ok (3, stateN4) ∧
    (2 : Nat) ≠ 3 ∧
    ((roomMsgs stateN4 "r").filter (nonceMatches "n")).length = 4 :=
  ⟨rfl, rfl, rfl, by decide, rfl⟩

/-- `find?` skips a prefix with no matches. -/
theorem find?_append_of_none {α : Type} {p : α → Bool} {l1 l2 : List α}
    (h : l1.find? p = none) : (l1 ++ l2).find? p = l2.find? p := by
  rw [List.find?_append, h, Option.none_or]

/-- C1 amended: when the room holds no message with the given nonce,
sending twice with the same room, nonce, owner and content yields the
same id both times and exactly one stored message with that nonce; the
second call changes nothing.  (The unrestricted claim fails when another
owner's message already holds the nonce — see the counterexample.) -/
theorem sendMessage_idempotent_fresh (s : ActorState)
    (room content nickname userId nonce : String) (replyToId : Option Nat)
    (image video audio : Option ExternalBlob) (now now2 : Int)
    (nick' : String)
    (hn : validateNickname nickname = .ok nick')
    (hv : validateJoinCode room = .ok ())
    (hfresh : ∀ m ∈ roomMsgs s room, nonceMatches nonce m = false) :
    ∃ s1, sendMessage s room content nickname userId replyToId image video
        audio nonce now = .ok (s.nextMessageId, s1) ∧
      sendMessage s1 room content nickname userId replyToId image video
        audio nonce now2 = .ok (s.nextMessageId, s1) ∧
      ((roomMsgs s1 room).filter (nonceMatches nonce)).length = 1 := by
  rcases hmg : mapGet s.messages room with _ | msgs
  · -- no bucket yet: the first send creates it
    refine ⟨
      { nextMessageId := s.nextMessageId + 1,
        activeRooms := s.activeRooms,
        messages := mapAdd s.messages room
          [{ id := s.nextMessageId, content := content, timestamp := now,
             nickname := nick', replyToId := replyToId, imageUrl := image,
             videoUrl := video, audioUrl := audio, isEdited := false,
             reactions := [], owner := userId, nonce := some nonce }] },
      ?_, ?_, ?_⟩
    · exact sendMessage_uncreated_room s room content nickname userId
        replyToId image video audio nonce now nick' hn hv hmg
    · simp only [sendMessage, hn, hv, mapGet_mapAdd_self, Option.getD_some,
        List.find?_cons, List.find?_nil, nonceMatches, beq_self_eq_true,
        Bool.and_self, if_true]
    · rw [roomMsgs]
      simp only [mapGet_mapAdd_self, Option.getD_some]
      simp [nonceMatches]
  · -- existing bucket with no matching nonce
    have hfind : msgs.find? (nonceMatches nonce) = none := by
      rw [List.find?_eq_none]
      intro m hm
      rw [hfresh m (by rw [roomMsgs, hmg]; exact hm)]
      simp
    refine ⟨
      { nextMessageId := s.nextMessageId + 1,
        activeRooms := s.activeRooms,
        messages := mapAdd s.messages room (msgs ++
          [{ id := s.nextMessageId, content := content, timestamp := now,
             nickname := nick', replyToId := replyToId, imageUrl := image,
             videoUrl := video, audioUrl := audio, isEdited := false,
             reactions := [], owner := userId, nonce := some nonce }]) },
      ?_, ?_, ?_⟩
    · simp only [sendMessage, hn, hv, hmg, Option.getD_some, hfind]
    · simp only [sendMessage, hn, hv, mapGet_mapAdd_self, Option.getD_some,
        find?_append_of_none hfind, List.find?_cons, List.find?_nil,
        nonceMatches, beq_self_eq_true, Bool.and_self, if_true]
    · rw [roomMsgs]
      simp only [mapGet_mapAdd_self, Option.getD_some, List.filter_append]
      rw [List.filter_eq_nil_iff.2 (by
        intro m hm
        rw [hfresh m (by rw [roomMsgs, hmg]; exact hm)]
        simp)]
      simp [nonceMatches]

/-- Witness for C1 (amended): a fresh-nonce double send in `state1`
(nonce `n2` unused there). -/
theorem sendMessage_idempotent_fresh_witness :
    ∃ s1, sendMessage state1 "r" "c3" "alice" "u1" none none none none
        "n2" 5 = .ok (state1.nextMessageId, s1) ∧
      sendMessage s1 "r" "c3" "alice" "u1" none none none none
        "n2" 9 = .ok (state1.nextMessageId, s1) ∧
      ((roomMsgs s1 "r").filter (nonceMatches "n2")).length = 1 :=
  sendMessage_idempotent_fresh state1 "r" "c3" "alice" "u1" "n2" none none
    none none 5 9 "alice" (by rfl) (by rfl)
    (by intro m hm; simp [state1, roomMsgs, mapGet] at hm; subst hm; rfl)

/-- C3: in every reachable state, `getMessages` returns strictly
ascending ids; moreover every stored message's id (in any room) is below
`nextMessageId`, so a message created by any later `sendMessage` gets a
strictly larger id — ascending id order IS creation order.  The store
keeps each room's list id-sorted: sends append the fresh global id, and
edit/delete/reaction/prune rewrite lists id-preservingly. -/
theorem getMessages_ids_ascending (s : ActorState) (h : ReachableState s)
    (room : String) (now : Int) (vs : List MessageView)
    (hg : getMessages s room now = .ok vs) :
    (vs.map MessageView.id).Pairwise (· < ·) ∧
    ∀ r : String, ∀ m ∈ roomMsgs s r, m.id < s.nextMessageId := by
  have hinv := storeInv_of_reachable h
  constructor
  · rcases hv : validateJoinCode room with e | u
    · rw [getMessages, hv] at hg
      exact absurd hg (by simp)
    · cases u
      rw [getMessages_eq s room now hv] at hg
      simp only [Except.ok.injEq] at hg
      subst hg
      rw [List.map_map]
      have hco : (MessageView.id ∘ convertMessageToView) = Message.id := rfl
      rw [hco, List.pairwise_map]
      have hp : (roomMsgs s room).Pairwise (fun a b => a.id < b.id) := by
        rw [roomMsgs]
        rcases hmg : mapGet s.messages room with _ | msgs
        · simp
        · simp only [Option.getD_some]
          exact (hinv (room, msgs) (mem_of_mapGet hmg)).1
      exact hp.sublist (List.filter_sublist _)
  · intro r m hm
    rw [roomMsgs] at hm
    rcases hmg : mapGet s.messages r with _ | msgs
    · rw [hmg] at hm
      simp at hm
    · rw [hmg] at hm
      simp only [Option.getD_some] at hm
      exact (hinv (r, msgs) (mem_of_mapGet hmg)).2 m hm

/-- Witness for C3 on the reachable two-step state holding one message. -/
theorem getMessages_ids_ascending_witness :
    ([convertMessageToView msg0].map MessageView.id).Pairwise (· < ·) :=
  (getMessages_ids_ascending
    (step (step initState (Op.createRoom "r"))
      (Op.sendMessage "r" "c1" "alice" "u1" none none none none "n" 0))
    (ReachableState.next _ (ReachableState.next _ ReachableState.init))
    "r" 5 [convertMessageToView msg0] (by rfl)).1

/-! ### Effect of send-only traces (for incremental-fetch consistency) -/

theorem sendMessage_effect {s s' : ActorState}
    {roomId content nickname userId : String} {replyToId : Option Nat}
    {image video audio : Option ExternalBlob} {nonce : String} {now : Int}
    {mid : Nat}
    (hc : sendMessage s roomId content nickname userId replyToId image video
      audio nonce now = .ok (mid, s')) (room : String) :
    s.nextMessageId ≤ s'.nextMessageId ∧
    ∃ suffix, roomMsgs s' room = roomMsgs s room ++ suffix ∧
      ∀ m ∈ suffix, s.nextMessageId ≤ m.id := by
  simp only [sendMessage] at hc
  rcases hn : validateNickname nickname with e | nick <;> simp only [hn] at hc
  · exact absurd hc (by simp)
  · rcases hv : validateJoinCode roomId with e | u <;> simp only [hv] at hc
    · exact absurd hc (by simp)
    · rcases hmg : mapGet s.messages roomId with _ | msgs <;>
        simp only [hmg, Option.getD_some, mapGet_mapAdd_self] at hc
      · simp only [List.find?_nil, Option.getD_none] at hc
        simp only [Except.ok.injEq, Prod.mk.injEq] at hc
        obtain ⟨-, rfl⟩ := hc
        refine ⟨Nat.le_succ _, ?_⟩
        by_cases hr : room = roomId
        · subst hr
          refine ⟨[newMsg s.nextMessageId content nick userId replyToId
              image video audio nonce now], ?_, ?_⟩
          · rw [roomMsgs, roomMsgs, hmg]
            simp [newMsg, mapAdd_mapAdd_self, mapGet_mapAdd_self]
          · intro m hm
            simp at hm
            subst hm
            exact le_refl _
        · refine ⟨[], ?_, by simp⟩
          rw [List.append_nil, roomMsgs, roomMsgs,
            mapAdd_mapAdd_self, mapGet_mapAdd_ne _ _ _ _ hr]
      · rcases hf : msgs.find? (nonceMatches nonce) with _ | dup <;>
          simp only [hf] at hc
        · simp only [Except.ok.injEq, Prod.mk.injEq] at hc
          obtain ⟨-, rfl⟩ := hc
          refine ⟨Nat.le_succ _, ?_⟩
          by_cases hr : room = roomId
          · subst hr
            refine ⟨[newMsg s.nextMessageId content nick userId replyToId
                image video audio nonce now], ?_, ?_⟩
            · rw [roomMsgs, roomMsgs, hmg]
              simp [newMsg, mapGet_mapAdd_self]
            · intro m hm
              simp at hm
              subst hm
              exact le_refl _
          · refine ⟨[], ?_, by simp⟩
            rw [List.append_nil, roomMsgs, roomMsgs,
              mapGet_mapAdd_ne _ _ _ _ hr]
        · split at hc
          · simp only [Except.ok.injEq, Prod.mk.injEq] at hc
            obtain ⟨-, rfl⟩ := hc
            exact ⟨le_refl _, [], by simp, by simp⟩
          · simp only [Except.ok.injEq, Prod.mk.injEq] at hc
            obtain ⟨-, rfl⟩ := hc
            refine ⟨Nat.le_succ _, ?_⟩
            by_cases hr : room = roomId
            · subst hr
              refine ⟨[newMsg s.nextMessageId content nick userId replyToId
                  image video audio nonce now], ?_, ?_⟩
              · rw [roomMsgs, roomMsgs, hmg]
                simp [newMsg, mapGet_mapAdd_self]
              · intro m hm
                simp at hm
                subst hm
                exact le_refl _
            · refine ⟨[], ?_, by simp⟩
              rw [List.append_nil, roomMsgs, roomMsgs,
                mapGet_mapAdd_ne _ _ _ _ hr]

theorem step_send_effect (s : ActorState) (op : Op) (room : String)
    (hsend : op.isSend = true) :
    s.nextMessageId ≤ (step s op).nextMessageId ∧
    ∃ suffix, roomMsgs (step s op) room = roomMsgs s room ++ suffix ∧
      ∀ m ∈ suffix, s.nextMessageId ≤ m.id := by
  cases op with
  | sendMessage roomId content nickname userId replyToId image video audio nonce now =>
    simp only [step]
    rcases hc : sendMessage s roomId content nickname userId replyToId image
        video audio nonce now with e | p
    · exact ⟨le_refl _, [], by simp, by simp⟩
    · obtain ⟨mid, s'⟩ := p
      exact sendMessage_effect hc room
  | createRoom c => simp [Op.isSend] at hsend
  | editMessage roomId messageId userId newContent newImage newVideo newAudio =>
    simp [Op.isSend] at hsend
  | deleteMessage roomId messageId userId => simp [Op.isSend] at hsend
  | addReaction roomId messageId userId emoji => simp [Op.isSend] at hsend
  | removeReaction roomId messageId userId emoji => simp [Op.isSend] at hsend
  | prune now adm => simp [Op.isSend] at hsend

theorem sends_append (ops : List Op) (s : ActorState) (room : String)
    (hops : ∀ op ∈ ops, op.isSend = true) :
    s.nextMessageId ≤ (ops.foldl step s).nextMessageId ∧
    ∃ suffix, roomMsgs (ops.foldl step s) room = roomMsgs s room ++ suffix ∧
      ∀ m ∈ suffix, s.nextMessageId ≤ m.id := by
  induction ops generalizing s with
  | nil => exact ⟨le_refl _, [], by simp, by simp⟩
  | cons op rest ih =>
    obtain ⟨hle1, suf1, heq1, hb1⟩ :=
      step_send_effect s op room (hops op (by simp))
    obtain ⟨hle2, suf2, heq2, hb2⟩ :=
      ih (step s op) (fun o ho => hops o (by simp [ho]))
    rw [List.foldl_cons]
    refine ⟨le_trans hle1 hle2, suf1 ++ suf2, ?_, ?_⟩
    · rw [heq2, heq1, List.append_assoc]
    · intro m hm
      rcases List.mem_append.1 hm with h1 | h1
      · exact hb1 m h1
      · exact le_trans hle1 (hb2 m h1)

/-- Every id below `maxId` bound, given all member ids below `n`. -/
theorem maxId_lt {vs : List MessageView} {n : Nat} (h0 : 0 < n)
    (h : ∀ v ∈ vs, v.id < n) : maxId vs < n := by
  induction vs with
  | nil => simpa [maxId] using h0
  | cons v rest ih =>
    rw [maxId, List.foldr_cons]
    rw [Nat.max_lt]
    exact ⟨h v (by simp), ih (fun w hw => h w (by simp [hw]))⟩

theorem mem_le_maxId {vs : List MessageView} {v : MessageView}
    (h : v ∈ vs) : v.id ≤ maxId vs := by
  induction vs with
  | nil => simp at h
  | cons w rest ih =>
    rw [maxId, List.foldr_cons]
    rcases List.mem_cons.1 h with h1 | h1
    · subst h1
      exact Nat.le_max_left _ _
    · exact le_trans (ih h1) (Nat.le_max_right _ _)

theorem roomMsgs_id_bound (s : ActorState) (hinv : StoreInv s) (r : String) :
    ∀ m ∈ roomMsgs s r, m.id < s.nextMessageId := by
  intro m hm
  rw [roomMsgs] at hm
  rcases hmg : mapGet s.messages r with _ | msgs
  · rw [hmg] at hm
    simp at hm
  · rw [hmg] at hm
    simp only [Option.getD_some] at hm
    exact (hinv (r, msgs) (mem_of_mapGet hmg)).2 m hm

/-- C7 counterexample: between T0 and T1 the owner edits message 0.  The
T0 snapshot holds the stale view, `fetchMessagesAfterId` (ids > 0 only)
returns nothing, so the deduplicated union keeps the stale content `c1`
while `getMessages` at T1 returns the edited `c2` — the claimed equality
fails for traces containing edits (and likewise deletes/reactions). -/
theorem incremental_fetch_cex :
    getMessages state1 "r" 0 = .ok [convertMessageToView msg0] ∧
    editMessage state1 "r" 0 "u1" "c2" none none none =
      .ok (true, stateEdited) ∧
    getMessages stateEdited "r" 0 = .ok [convertMessageToView msg0edited] ∧
    fetchMessagesAfterId stateEdited "r"
      (maxId [convertMessageToView msg0]) 0 = .ok [] ∧
    (unionById [convertMessageToView msg0] []).filter (viewNotExpired 0) =
      [convertMessageToView msg0] ∧
    convertMessageToView msg0 ≠ convertMessageToView msg0edited :=
  ⟨rfl, rfl, rfl, rfl, rfl, by decide⟩

/-- C7 amended: for a reachable T0 state, a T1 state reached from it by
`sendMessage` calls only (no edit/delete/reaction), clock moving forward
and a nonempty T0 snapshot, `getMessages` at T0 unioned (deduplicated by
id) with `fetchMessagesAfterId` after the T0 maximum id at T1, restricted
to views non-expired at T1, equals `getMessages` at T1. -/
theorem incremental_fetch_consistency (s0 : ActorState) (ops : List Op)
    (room : String) (now0 now1 : Int) (g0 g1 f1 : List MessageView)
    (hreach : ReachableState s0)
    (hops : ∀ op ∈ ops, op.isSend = true)
    (hle : now0 ≤ now1)
    (hg0 : getMessages s0 room now0 = .ok g0)
    (hne : g0 ≠ [])
    (hg1 : getMessages (ops.foldl step s0) room now1 = .ok g1)
    (hf1 : fetchMessagesAfterId (ops.foldl step s0) room (maxId g0) now1 =
      .ok f1) :
    (unionById g0 f1).filter (viewNotExpired now1) = g1 := by
  have hinv := storeInv_of_reachable hreach
  rcases hv : validateJoinCode room with e | u
  · rw [getMessages, hv] at hg0
    exact absurd hg0 (by simp)
  cases u
  obtain ⟨hleN, new, heqN, hbN⟩ := sends_append ops s0 room hops
  rw [getMessages_eq _ _ _ hv] at hg0 hg1
  rw [fetchMessagesAfterId_eq _ _ _ _ hv] at hf1
  simp only [Except.ok.injEq] at hg0 hg1 hf1
  subst hg0
  subst hg1
  subst hf1
  have hmono : ∀ m : Message, isNotExpired now1 m = true →
      isNotExpired now0 m = true := by
    intro m h1
    rw [isNotExpired] at h1 ⊢
    simp only [decide_eq_true_eq] at h1 ⊢
    omega
  have hbound := roomMsgs_id_bound s0 hinv room
  have hpos : 0 < s0.nextMessageId := by
    rcases List.exists_mem_of_ne_nil _ hne with ⟨v, hv0⟩
    rcases List.mem_map.1 hv0 with ⟨m, hm, -⟩
    have := hbound m (List.mem_of_mem_filter hm)
    omega
  have hgid : ∀ v ∈ (((roomMsgs s0 room).filter (isNotExpired now0)).map
      convertMessageToView), v.id < s0.nextMessageId := by
    intro v hv0
    rcases List.mem_map.1 hv0 with ⟨m, hm, rfl⟩
    exact hbound m (List.mem_of_mem_filter hm)
  have hmax := maxId_lt hpos hgid
  have hmem_le : ∀ m ∈ roomMsgs s0 room, isNotExpired now1 m = true →
      m.id ≤ maxId (((roomMsgs s0 room).filter (isNotExpired now0)).map
        convertMessageToView) := by
    intro m hm h1
    exact mem_le_maxId (List.mem_map_of_mem convertMessageToView
      (List.mem_filter.2 ⟨hm, hmono m h1⟩))
  have hnew_gt : ∀ m ∈ new,
      maxId (((roomMsgs s0 room).filter (isNotExpired now0)).map
        convertMessageToView) < m.id :=
    fun m hm => lt_of_lt_of_le hmax (hbN m hm)
  rw [heqN, List.filter_append, List.filter_append]
  have hf0 : (roomMsgs s0 room).filter (fun msg =>
      isNotExpired now1 msg && decide
        (maxId (((roomMsgs s0 room).filter (isNotExpired now0)).map
          convertMessageToView) < msg.id)) = [] := by
    rw [List.filter_eq_nil_iff]
    intro m hm
    simp only [Bool.and_eq_true, decide_eq_true_eq, not_and]
    intro h1
    have := hmem_le m hm h1
    omega
  have hfn : new.filter (fun msg =>
      isNotExpired now1 msg && decide
        (maxId (((roomMsgs s0 room).filter (isNotExpired now0)).map
          convertMessageToView) < msg.id)) =
      new.filter (isNotExpired now1) := by
    apply List.filter_congr
    intro m hm
    rw [decide_eq_true (hnew_gt m hm), Bool.and_true]
  rw [hf0, hfn, List.nil_append, List.map_append]
  rw [unionById]
  have hkeep : ((new.filter (isNotExpired now1)).map
      convertMessageToView).filter (fun v =>
        !((((roomMsgs s0 room).filter (isNotExpired now0)).map
          convertMessageToView).any (fun w => w.id == v.id))) =
      (new.filter (isNotExpired now1)).map convertMessageToView := by
    rw [List.filter_eq_self]
    intro v hv0
    rcases List.mem_map.1 hv0 with ⟨m, hm, rfl⟩
    have hgt := hnew_gt m (List.mem_of_mem_filter hm)
    rw [Bool.not_eq_true']
    rw [List.any_eq_false]
    intro w hw
    have hwle := mem_le_maxId hw
    simp only [beq_iff_eq]
    show ¬(w.id = m.id)
    omega
  rw [hkeep, List.filter_append]
  have hfkeep : (((new.filter (isNotExpired now1)).map
      convertMessageToView).filter (viewNotExpired now1)) =
      (new.filter (isNotExpired now1)).map convertMessageToView := by
    rw [List.filter_eq_self]
    intro v hv0
    rcases List.mem_map.1 hv0 with ⟨m, hm, rfl⟩
    have h1 := List.of_mem_filter hm
    exact h1
  rw [hfkeep]
  have hg0keep : ((((roomMsgs s0 room).filter (isNotExpired now0)).map
      convertMessageToView).filter (viewNotExpired now1)) =
      ((roomMsgs s0 room).filter (isNotExpired now1)).map
        convertMessageToView := by
    rw [List.filter_map]
    have hcomp : (viewNotExpired now1 ∘ convertMessageToView) =
        isNotExpired now1 := rfl
    rw [hcomp, List.filter_filter]
    congr 1
    apply List.filter_congr
    intro m hm
    cases h1 : isNotExpired now1 m
    · simp
    · simp [hmono m h1]
  rw [hg0keep]

/-- Witness for C7 (amended): one message at T0, one send in between,
union equals the T1 read. -/
theorem incremental_fetch_consistency_witness :
    (unionById [convertMessageToView msg0] [convertMessageToView msg4]).filter
      (viewNotExpired 5) =
      [convertMessageToView msg0, convertMessageToView msg4] :=
  incremental_fetch_consistency
    (step (step initState (Op.createRoom "r"))
      (Op.sendMessage "r" "c1" "alice" "u1" none none none none "n" 0))
    [Op.sendMessage "r" "c4" "alice" "u1" none none none none "n4" 5]
    "r" 0 5 [convertMessageToView msg0]
    [convertMessageToView msg0, convertMessageToView msg4]
    [convertMessageToView msg4]
    (ReachableState.next _ (ReachableState.next _ ReachableState.init))
    (by intro op hop
        simp only [List.mem_singleton] at hop
        subst hop
        rfl)
    (by decide) (by rfl) (by decide) (by rfl) (by rfl)
